import Mathlib

/-
  Verification of the pv-api backtesting engine against its specification.

  Shallow embedding of the Accelerating Dual Momentum strategy
  (strategies/adm.go), the Tiingo data provider (data/tiingo.go), the HTTP
  strategy handler, and the notifier CLI loop.  Missing values (Go NaN /
  dataframe-go nil cells) are modelled as `none : Option ℚ`; machine floats
  are modelled as rationals.  Library pieces of the repository that are not
  part of the provided sources (dfextras.Lag, dfextras.Rolling,
  dfextras.TimeTrim, dfextras.ArgMax, MergeAndTimeAlign) are modelled from
  the specification's contracts, as noted on each definition.
-/

namespace PV

/-! ### Option-valued rational arithmetic (NaN propagation)

dataframe-go stores a missing float cell as NaN and `funcs.Evaluate`
propagates NaN through arithmetic; we model a missing cell as `none` and
propagate it. -/

def optAdd : Option ℚ → Option ℚ → Option ℚ
  | some a, some b => some (a + b)
  | _, _ => none

def optSub : Option ℚ → Option ℚ → Option ℚ
  | some a, some b => some (a - b)
  | _, _ => none

def optMul : Option ℚ → Option ℚ → Option ℚ
  | some a, some b => some (a * b)
  | _, _ => none

def optDiv : Option ℚ → Option ℚ → Option ℚ
  | some a, some b => some (a / b)
  | _, _ => none

/-! ### Columns

A numeric column of a frame is modelled as a map from row index to its
(possibly missing) value. -/

/-- Modelled from the spec: `Lag(k, F).value[i] = F.value[i-k]` for `i ≥ k`;
NaN otherwise (dfextras.Lag, used by computeScores in adm.go). -/
def lagFn (k : Nat) (f : Nat → Option ℚ) : Nat → Option ℚ :=
  fun i => if i < k then none else f (i - k)

/-- Sum of the non-missing values of a list, exactly as the aggregation
function registered in computeScores (adm.go 193-202): missing cells are
skipped, present values are accumulated. -/
def sumPresent (vals : List (Option ℚ)) : ℚ :=
  vals.foldl (fun s v => match v with | some x => s + x | none => s) 0

/-- Modelled from the spec: `Rolling(window, series, aggFn)`: for each row
`i ≥ window-1`, produce `aggFn(series[i-window+1 .. i])`; leading rows NaN.
Instantiated with the summing aggregator of computeScores. -/
def rollSumFn (w : Nat) (f : Nat → Option ℚ) : Nat → Option ℚ :=
  fun i =>
    if i + 1 < w then none
    else some (sumPresent ((List.range w).map (fun j => f (i + 1 - w + j))))

/-- The momentum column `TICKERMOMp` of computeScores (adm.go 244-250):
the registered formula `(((T/TLAGp)-1)*100)-(RISKFREEp/12)` evaluated
row-wise, where `TLAGp` is the lag-p column of the ticker price series and
`RISKFREEp` the rolling p-sum of the risk-free column. -/
def momCol (p : Nat) (price rf : Nat → Option ℚ) : Nat → Option ℚ :=
  fun i =>
    optSub
      (optMul (optSub (optDiv (price i) (lagFn p price i)) (some 1)) (some 100))
      (optDiv (rollSumFn p rf i) (some 12))

/-- The score column `TICKERSCORE` of computeScores (adm.go 252-257):
the registered formula `(TMOM1+TMOM3+TMOM6)/3` evaluated row-wise. -/
def scoreCol (price rf : Nat → Option ℚ) : Nat → Option ℚ :=
  fun i =>
    optDiv
      (optAdd (optAdd (momCol 1 price rf i) (momCol 3 price rf i))
        (momCol 6 price rf i))
      (some 3)

end PV

namespace PV

/-- C1. For every in-ticker and every lookback period p ∈ {1, 3, 6}, the
momentum value at a row t with all inputs present is
`((price_t / price_{t-p}) - 1) * 100 - (rolling p-month sum of the
risk-free rate) / 12`, and the ticker's score at t is the arithmetic mean
`(mom_1 + mom_3 + mom_6) / 3` of the three momentum values. -/
theorem adm_momentum_and_score_formula (price rf : Nat → Option ℚ) (t : Nat)
    (h6 : 6 ≤ t)
    (x0 x1 x3 x6 : ℚ)
    (hp0 : price t = some x0) (hp1 : price (t - 1) = some x1)
    (hp3 : price (t - 3) = some x3) (hp6 : price (t - 6) = some x6)
    (r1 r3 r6 : ℚ)
    (hr1 : rollSumFn 1 rf t = some r1) (hr3 : rollSumFn 3 rf t = some r3)
    (hr6 : rollSumFn 6 rf t = some r6) :
    momCol 1 price rf t = some ((x0 / x1 - 1) * 100 - r1 / 12) ∧
    momCol 3 price rf t = some ((x0 / x3 - 1) * 100 - r3 / 12) ∧
    momCol 6 price rf t = some ((x0 / x6 - 1) * 100 - r6 / 12) ∧
    scoreCol price rf t =
      some ((((x0 / x1 - 1) * 100 - r1 / 12) + ((x0 / x3 - 1) * 100 - r3 / 12)
        + ((x0 / x6 - 1) * 100 - r6 / 12)) / 3) := by
  have hl1 : lagFn 1 price t = some x1 := by
    simp only [lagFn, if_neg (by omega : ¬ t < 1)]; exact hp1
  have hl3 : lagFn 3 price t = some x3 := by
    simp only [lagFn, if_neg (by omega : ¬ t < 3)]; exact hp3
  have hl6 : lagFn 6 price t = some x6 := by
    simp only [lagFn, if_neg (by omega : ¬ t < 6)]; exact hp6
  have hm1 : momCol 1 price rf t = some ((x0 / x1 - 1) * 100 - r1 / 12) := by
    simp [momCol, hp0, hl1, hr1, optSub, optMul, optDiv]
  have hm3 : momCol 3 price rf t = some ((x0 / x3 - 1) * 100 - r3 / 12) := by
    simp [momCol, hp0, hl3, hr3, optSub, optMul, optDiv]
  have hm6 : momCol 6 price rf t = some ((x0 / x6 - 1) * 100 - r6 / 12) := by
    simp [momCol, hp0, hl6, hr6, optSub, optMul, optDiv]
  refine ⟨hm1, hm3, hm6, ?_⟩
  simp [scoreCol, hm1, hm3, hm6, optAdd, optDiv]

/-- Witness for C1: concrete flat price series (all 1) and constant
risk-free rate 12; at row 6 the momenta are −1, −3, −6 and the score is
−10/3. -/
theorem adm_momentum_and_score_formula_witness :
    momCol 1 (fun _ => some 1) (fun _ => some 12) 6 = some (-1) ∧
    momCol 3 (fun _ => some 1) (fun _ => some 12) 6 = some (-3) ∧
    momCol 6 (fun _ => some 1) (fun _ => some 12) 6 = some (-6) ∧
    scoreCol (fun _ => some 1) (fun _ => some 12) 6 = some (-10/3) := by
  have h := adm_momentum_and_score_formula (fun _ => some 1) (fun _ => some 12)
    6 (by norm_num) 1 1 1 1 rfl rfl rfl rfl 12 36 72
    (by norm_num [rollSumFn, sumPresent, List.range_succ])
    (by norm_num [rollSumFn, sumPresent, List.range_succ])
    (by norm_num [rollSumFn, sumPresent, List.range_succ])
  obtain ⟨h1, h3, h6, hs⟩ := h
  refine ⟨?_, ?_, ?_, ?_⟩
  · rw [h1]; norm_num
  · rw [h3]; norm_num
  · rw [h6]; norm_num
  · rw [hs]; norm_num

end PV

namespace PV

/-! ### C2: row-wise ArgMax over the score frame -/

/-- Modelled from the spec: the comparison step of dfextras.ArgMax — of two
named cells keep the one with the larger value; on equal values keep the
lexicographically smaller column name (deterministic tie-break). -/
def argMaxStep (b c : String × ℚ) : String × ℚ :=
  if b.2 < c.2 then c else if c.2 < b.2 then b else if c.1 < b.1 then c else b

/-- Modelled from the spec: `ArgMax(frame)` — per row, return the *name* of
the column (excluding date) whose value is maximal; ties broken by
lexicographic column name.  A row is the list of (columnName, value) cells;
in ADM's score frame the out-ticker column (identically 0) comes first,
followed by one score column per in-ticker (adm.go 288-311). -/
def argMaxRow : List (String × ℚ) → Option String
  | [] => none
  | c :: rest => some (rest.foldl argMaxStep c).1

/-- A cell with nonnegative value survives the ArgMax fold against cells
with strictly negative values. -/
lemma foldl_argMaxStep_of_neg (b : String × ℚ) (l : List (String × ℚ))
    (hb : 0 ≤ b.2) (hl : ∀ s ∈ l, s.2 < 0) : l.foldl argMaxStep b = b := by
  induction l with
  | nil => rfl
  | cons c rest ih =>
    have hc : c.2 < 0 := hl c (List.mem_cons_self c rest)
    have hstep : argMaxStep b c = b := by
      unfold argMaxStep
      rw [if_neg (not_lt.mpr (le_of_lt (lt_of_lt_of_le hc hb))),
        if_pos (lt_of_lt_of_le hc hb)]
    rw [List.foldl_cons, hstep]
    exact ih (fun s hs => hl s (List.mem_cons_of_mem c hs))

/-- Counterexample to C2 as stated: with in-ticker PRIDX at score exactly 0
(so every in-ticker score is ≤ 0) and out-ticker VUSTX at its constant 0,
the lexicographic tie-break hands the row to PRIDX, not to the out-ticker. -/
theorem adm_argmax_nonpositive_counterexample :
    (∀ s ∈ [(("PRIDX" : String), (0 : ℚ))], s.2 ≤ 0) ∧
    argMaxRow [("VUSTX", (0 : ℚ)), ("PRIDX", (0 : ℚ))] = some "PRIDX" ∧
    ("PRIDX" : String) ≠ "VUSTX" := by
  refine ⟨?_, ?_, ?_⟩
  · intro s hs
    simp only [List.mem_singleton] at hs
    rw [hs]
  · show some ([(("PRIDX" : String), (0 : ℚ))].foldl argMaxStep ("VUSTX", 0)).1
      = some "PRIDX"
    have h1 : ¬ ((0 : ℚ) < 0) := lt_irrefl 0
    have h2 : ("PRIDX" : String) < "VUSTX" := by
      rw [String.lt_iff_toList_lt]; decide
    simp only [List.foldl_cons, List.foldl_nil, argMaxStep, if_neg h1, if_pos h2]
  · decide

/-- C2 (amended). In every row of the ADM target-portfolio computation in
which every in-ticker's score is strictly less than 0, the argmax over the
score columns (the out-ticker column being identically zero) selects the
out-ticker as the target holding; with a score tied at exactly 0 the
lexicographic tie-break may instead select an in-ticker. -/
theorem adm_argmax_all_negative_selects_out (outName : String)
    (scores : List (String × ℚ)) (h : ∀ s ∈ scores, s.2 < 0) :
    argMaxRow ((outName, (0 : ℚ)) :: scores) = some outName := by
  show some (scores.foldl argMaxStep (outName, (0 : ℚ))).1 = some outName
  rw [foldl_argMaxStep_of_neg (outName, (0 : ℚ)) scores le_rfl h]

/-- Witness for the amended C2 at a concrete row: PRIDX at −1, out-ticker
VUSTX wins. -/
theorem adm_argmax_all_negative_selects_out_witness :
    (∀ s ∈ [(("PRIDX" : String), (-1 : ℚ))], s.2 < 0) ∧
    argMaxRow [("VUSTX", (0 : ℚ)), ("PRIDX", (-1 : ℚ))] = some "VUSTX" := by
  have hneg : ∀ s ∈ [(("PRIDX" : String), (-1 : ℚ))], s.2 < 0 := by
    intro s hs
    simp only [List.mem_singleton] at hs
    rw [hs]
    norm_num
  exact ⟨hneg, adm_argmax_all_negative_selects_out "VUSTX" _ hneg⟩

/-! ### C3: Begin/End defaulting at the head of ADM Compute -/

/-- Go time.Time at month granularity: a count of months since an arbitrary
epoch; the Go zero time (an unset manager field, compared against
`time.Time{}` in adm.go) is modelled as `none`. -/
abbrev GoMonth := Option ℤ

/-- `time.Time.AddDate(y, m, 0)` at month granularity. -/
def addDateMonths (t y m : ℤ) : ℤ := t + 12 * y + m

/-- The time-range adjustment at the head of ADM Compute (adm.go 263-275):
if End is the zero time set it to now; if Begin is the zero time set it to
`End.AddDate(-50, 0, 0)`, otherwise set it to `Begin.AddDate(0, -6, 0)`.
Returns the pair (Begin, End) after adjustment. -/
def admAdjustPeriod (beginT endT : GoMonth) (now : ℤ) : ℤ × ℤ :=
  let e : ℤ :=
    match endT with
    | none => now
    | some e0 => e0
  let b : ℤ :=
    match beginT with
    | none => addDateMonths e (-50) 0
    | some b0 => addDateMonths b0 0 (-6)
  (b, e)

/-- C3. For every ADM Compute call: an unset End becomes the current time;
an unset Begin becomes End minus 50 years (600 months); a set Begin is
moved 6 months earlier than the caller's value — covering all four
combinations of set/unset Begin and End. -/
theorem adm_period_defaults (now b e : ℤ) :
    admAdjustPeriod none none now = (now - 600, now) ∧
    admAdjustPeriod none (some e) now = (e - 600, e) ∧
    admAdjustPeriod (some b) none now = (b - 6, now) ∧
    admAdjustPeriod (some b) (some e) now = (b - 6, e) := by
  refine ⟨?_, ?_, ?_, ?_⟩ <;> simp only [admAdjustPeriod, addDateMonths] <;>
    norm_num <;> omega

/-! ### C9: the notifier's --limit flag -/

/-- The notifier's per-portfolio loop (cmd/notifier/main.go 385-396):
iterate over the saved portfolios with 0-based index `ii`, run the
compute/update/notify body, then `break` when
`*limitFlag != 0 && *limitFlag >= ii`.  Returns the number of loop
iterations executed. -/
def notifierIterations {α : Type} (limitFlag : ℤ) : ℤ → List α → Nat
  | _, [] => 0
  | ii, _ :: rest =>
    1 + (if limitFlag ≠ 0 ∧ ii ≤ limitFlag then 0
      else notifierIterations limitFlag (ii + 1) rest)

/-- C9. For every N > 0, running the notifier with --limit N executes at
most N iterations of the per-portfolio loop.  (In fact the off-by-one
check `limitFlag >= ii` already fires at index 0, so at most one iteration
runs — which satisfies the claimed bound.) -/
theorem notifier_limit_processes_at_most_n {α : Type} (n : ℤ) (hn : 0 < n)
    (ps : List α) : (notifierIterations n 0 ps : ℤ) ≤ n := by
  cases ps with
  | nil => simpa [notifierIterations] using le_of_lt hn
  | cons p rest =>
    have hcond : n ≠ 0 ∧ (0 : ℤ) ≤ n := ⟨ne_of_gt hn, le_of_lt hn⟩
    rw [notifierIterations, if_pos hcond]
    omega

/-- Witness for C9: limit 3 over five saved portfolios executes at most 3
iterations (in fact exactly one). -/
theorem notifier_limit_processes_at_most_n_witness :
    (0 : ℤ) < 3 ∧
    (notifierIterations (α := Unit) 3 0 [(), (), (), (), ()] : ℤ) ≤ 3 :=
  ⟨by norm_num, notifier_limit_processes_at_most_n 3 (by norm_num) _⟩

end PV

namespace PV

/-! ### Tiingo provider: GetDataForPeriod (data/tiingo.go) -/

/-- A parsed CSV cell of a Tiingo response: a date, a number, or NaN (the
value stored when a price field's text fails to parse as a float). -/
inductive Cell where
  | date (d : ℤ)
  | num (q : ℚ)
  | nan
deriving DecidableEq

/-- A loaded CSV frame: named columns of cells. -/
structure CsvFrame where
  cols : List (String × List Cell)
deriving DecidableEq

/-- `DataFrame.NameToColumn`: look a column up by name. -/
def nameToColumn (f : CsvFrame) (name : String) : Option (List Cell) :=
  (f.cols.find? (fun c => c.1 == name)).map (fun c => c.2)

/-- The error outcomes of tiingo.GetDataForPeriod, together with the
`ProviderParseError` of the spec's error taxonomy (§7), which the code
never produces. `nilFramePanic` stands for the run-time panic of calling
`res.NameToColumn` on the nil frame a failed `imports.LoadFromCSV`
returns. -/
inductive ProviderErr where
  | invalidFrequency (f : String)
  | httpStatus (code : Nat)
  | nilFramePanic
  | cannotFindTimeSeries
  | metricNotFound (m : String)
  | unsupportedMetric
  | providerParseError
deriving DecidableEq

/-- The metric argument of GetDataForPeriod: the nine recognized metric
constants, plus an unrecognized value hitting the switch's default. -/
inductive Metric where
  | mOpen | mHigh | mLow | mClose | mVolume
  | mAdjOpen | mAdjHigh | mAdjLow | mAdjClose
  | unknownMetric
deriving DecidableEq

/-- The CSV column each metric selects in the switch of GetDataForPeriod
(data/tiingo.go 352-409); `none` for the unsupported-metric default. -/
def metricColumn : Metric → Option String
  | .mOpen => some "open"
  | .mHigh => some "high"
  | .mLow => some "low"
  | .mClose => some "close"
  | .mVolume => some "volume"
  | .mAdjOpen => some "adjOpen"
  | .mAdjHigh => some "adjHigh"
  | .mAdjLow => some "adjLow"
  | .mAdjClose => some "adjClose"
  | .unknownMetric => none

/-- The frequency whitelist of GetDataForPeriod (data/tiingo.go 236-241). -/
def validFrequencies : List String := ["Daily", "Weekly", "Monthly", "Annually"]

/-- tiingo.GetDataForPeriod (data/tiingo.go 235-419) from the point the
HTTP response is in hand: parameterized by the request frequency, the
response's HTTP status code, and the result of `imports.LoadFromCSV` on
the response body (`none` = the CSV failed to load).  Mirrors the source's
control flow: the frequency whitelist, the `>= 400` status check, the
swallowed LoadFromCSV error (`err = nil` at line 340), the date-column
lookup, and the metric switch; on success the date column is renamed DATE,
the value column is renamed to the symbol, and a two-column frame is
returned. -/
def getDataForPeriod (frequency : String) (statusCode : Nat)
    (csvResult : Option CsvFrame) (metric : Metric) (symbol : String) :
    Except ProviderErr CsvFrame :=
  if frequency ∉ validFrequencies then
    .error (.invalidFrequency frequency)
  else if 400 ≤ statusCode then
    .error (.httpStatus statusCode)
  else
    match csvResult with
    | none => .error .nilFramePanic
    | some res =>
      match nameToColumn res "date" with
      | none => .error .cannotFindTimeSeries
      | some timeSeries =>
        match metricColumn metric with
        | none => .error .unsupportedMetric
        | some colName =>
          match nameToColumn res colName with
          | none => .error (.metricNotFound colName)
          | some valueSeries =>
            .ok ⟨[("DATE", timeSeries), (symbol, valueSeries)]⟩

/-- A well-formed one-row CSV frame as LoadFromCSV would produce it. -/
def tiingoSampleFrame : CsvFrame :=
  ⟨[("date", [Cell.date 0]), ("close", [Cell.num 1])]⟩

/-- Counterexample to C7 as stated: 304 is a non-2xx status code, yet
GetDataForPeriod (whose check is `statusCode >= 400`) does not return an
error carrying the status — it proceeds and returns a data frame. -/
theorem tiingo_non2xx_counterexample :
    ((304 : Nat) < 200 ∨ 300 ≤ (304 : Nat)) ∧
    getDataForPeriod "Monthly" 304 (some tiingoSampleFrame) .mClose "VFINX" =
      .ok ⟨[("DATE", [Cell.date 0]), ("VFINX", [Cell.num 1])]⟩ := by
  exact ⟨Or.inr (by norm_num), rfl⟩

/-- C7 (amended). For every HTTP response with status code ≥ 400 (rather
than every non-2xx status), GetDataForPeriod under a valid frequency
returns the error carrying the status code and no data frame. -/
theorem tiingo_http_error_status (frequency : String) (statusCode : Nat)
    (csvResult : Option CsvFrame) (metric : Metric) (symbol : String)
    (hf : frequency ∈ validFrequencies) (hs : 400 ≤ statusCode) :
    getDataForPeriod frequency statusCode csvResult metric symbol =
      .error (.httpStatus statusCode) := by
  simp [getDataForPeriod, hf, hs]

/-- Witness for the amended C7: a 404 response on a Monthly request yields
the HTTP-status error. -/
theorem tiingo_http_error_status_witness :
    ("Monthly" ∈ validFrequencies ∧ 400 ≤ 404) ∧
    getDataForPeriod "Monthly" 404 (some tiingoSampleFrame) .mClose "VFINX" =
      .error (.httpStatus 404) :=
  ⟨⟨by simp [validFrequencies], by norm_num⟩,
    tiingo_http_error_status "Monthly" 404 (some tiingoSampleFrame) .mClose
      "VFINX" (by simp [validFrequencies]) (by norm_num)⟩

/-- Counterexample to C6 as stated: on a response body whose CSV content
fails to load (LoadFromCSV errors, modelled as `csvResult = none`),
GetDataForPeriod does not return a ProviderParseError — the error is
swallowed (`err = nil`) and the nil frame makes the subsequent
`NameToColumn` call panic. -/
theorem tiingo_parse_error_counterexample :
    getDataForPeriod "Monthly" 200 none .mClose "VFINX" =
      .error .nilFramePanic ∧
    (Except.error ProviderErr.nilFramePanic :
        Except ProviderErr CsvFrame) ≠ .error .providerParseError := by
  refine ⟨rfl, ?_⟩
  intro h
  exact absurd (Except.error.inj h) (by simp)

/-- C6 (amended). For every provider response whose CSV content fails to
load (under a valid frequency and a successful HTTP status), the
LoadFromCSV error is silently discarded and GetDataForPeriod fails with
the nil-frame panic, never with a ProviderParseError. -/
theorem tiingo_csv_failure_swallowed (frequency : String) (statusCode : Nat)
    (metric : Metric) (symbol : String)
    (hf : frequency ∈ validFrequencies) (hs : statusCode < 400) :
    getDataForPeriod frequency statusCode none metric symbol =
      .error .nilFramePanic := by
  simp [getDataForPeriod, hf, Nat.not_le.mpr hs]

/-- Witness for the amended C6. -/
theorem tiingo_csv_failure_swallowed_witness :
    ("Monthly" ∈ validFrequencies ∧ 200 < 400) ∧
    getDataForPeriod "Monthly" 200 none .mClose "VFINX" =
      .error .nilFramePanic :=
  ⟨⟨by simp [validFrequencies], by norm_num⟩,
    tiingo_csv_failure_swallowed "Monthly" 200 .mClose "VFINX"
      (by simp [validFrequencies]) (by norm_num)⟩

end PV

namespace PV

/-! ### C10: the CSV cell converters of GetDataForPeriod -/

/-- The value the float converter stores for a cell text: the parsed
number, or NaN when `strconv.ParseFloat` fails. -/
def cellOfParse (parseFloat : String → Option ℚ) (s : String) : Cell :=
  match parseFloat s with
  | none => .nan
  | some v => .num v

/-- The float converter of GetDataForPeriod (data/tiingo.go 308-317),
registered for open/high/low/close/volume and the adjusted variants:
parse the cell text as a float; on failure return NaN with a nil error.
Parameterized by the semantics of strconv.ParseFloat. -/
def floatConverter (parseFloat : String → Option ℚ) (s : String) :
    Except String Cell :=
  match parseFloat s with
  | none => .ok .nan
  | some v => .ok (.num v)

/-- The date converter of GetDataForPeriod (data/tiingo.go 321-326):
`time.Parse("2006-01-02", text)`, whose error is returned to LoadFromCSV.
Parameterized by the semantics of time.Parse. -/
def dateConverter (parseDate : String → Option ℤ) (s : String) :
    Except String Cell :=
  match parseDate s with
  | none => .error s
  | some d => .ok (.date d)

/-- One CSV row under the DictateDataType converter map of
GetDataForPeriod: the date cell goes through the date converter and every
price cell through the float converter; a converter error fails the row. -/
def loadTiingoRow (parseFloat : String → Option ℚ)
    (parseDate : String → Option ℤ) (dateText : String)
    (priceTexts : List String) : Except String (Cell × List Cell) := do
  let d ← dateConverter parseDate dateText
  let ps ← priceTexts.mapM (floatConverter parseFloat)
  pure (d, ps)

/-- The float converter never reports an error. -/
lemma floatConverter_ok (parseFloat : String → Option ℚ) (s : String) :
    floatConverter parseFloat s = .ok (cellOfParse parseFloat s) := by
  unfold floatConverter cellOfParse
  cases parseFloat s <;> rfl

/-- Converting a whole list of price cells always succeeds. -/
lemma floatConverter_mapM_ok (parseFloat : String → Option ℚ)
    (priceTexts : List String) :
    priceTexts.mapM (floatConverter parseFloat) =
      .ok (priceTexts.map (cellOfParse parseFloat)) := by
  induction priceTexts with
  | nil => rfl
  | cons p rest ih =>
    rw [List.mapM_cons, floatConverter_ok, List.map_cons]
    rw [ih]
    rfl

/-- C10. In a Tiingo CSV row, every price field (open/high/low/close/volume
and their adjusted variants) whose text does not parse as a float is
stored as NaN and the load succeeds; the row fails only when the date
column's text fails to parse. -/
theorem tiingo_bad_price_cell_is_nan (parseFloat : String → Option ℚ)
    (parseDate : String → Option ℤ) (dateText : String)
    (priceTexts : List String) (d : ℤ) (hd : parseDate dateText = some d) :
    loadTiingoRow parseFloat parseDate dateText priceTexts =
      .ok (.date d, priceTexts.map (cellOfParse parseFloat)) ∧
    (∀ s ∈ priceTexts, parseFloat s = none →
      cellOfParse parseFloat s = Cell.nan) ∧
    (∀ badDate, parseDate badDate = none →
      loadTiingoRow parseFloat parseDate badDate priceTexts =
        .error badDate) := by
  refine ⟨?_, ?_, ?_⟩
  · unfold loadTiingoRow dateConverter
    rw [hd]
    show (priceTexts.mapM (floatConverter parseFloat)).bind _ = _
    rw [floatConverter_mapM_ok]
    rfl
  · intro s _ hnone
    unfold cellOfParse
    rw [hnone]
  · intro badDate hbad
    unfold loadTiingoRow dateConverter
    rw [hbad]
    rfl

/-- Witness for C10 at a concrete row: the malformed price text is stored
as NaN and the row loads; a malformed date text fails the row. -/
theorem tiingo_bad_price_cell_is_nan_witness :
    ((fun s => if s = "2020-01-02" then some (18263 : ℤ) else none)
        "2020-01-02" = some 18263) ∧
    loadTiingoRow (fun s => if s = "1.5" then some ((3 : ℚ)/2) else none)
      (fun s => if s = "2020-01-02" then some (18263 : ℤ) else none)
      "2020-01-02" ["1.5", "oops"] =
      .ok (.date 18263, [Cell.num ((3 : ℚ)/2), Cell.nan]) ∧
    loadTiingoRow (fun s => if s = "1.5" then some ((3 : ℚ)/2) else none)
      (fun s => if s = "2020-01-02" then some (18263 : ℤ) else none)
      "bad-date" ["1.5", "oops"] = .error "bad-date" := by
  have h := tiingo_bad_price_cell_is_nan
    (fun s => if s = "1.5" then some ((3 : ℚ)/2) else none)
    (fun s => if s = "2020-01-02" then some (18263 : ℤ) else none)
    "2020-01-02" ["1.5", "oops"] 18263 (by simp)
  refine ⟨by simp, ?_, ?_⟩
  · rw [h.1]
    simp [cellOfParse]
  · exact h.2.2 "bad-date" (by simp)

/-! ### C8: the HTTP frontend's status mapping -/

/-- The reasons a strategy Compute call can fail, per the spec's error
taxonomy (§7): an unresolvable symbol, a provider/network failure, or an
internal error. -/
inductive ComputeErr where
  | symbolNotFound
  | providerHTTPError
  | internalError
deriving DecidableEq

/-- handler.RunStrategy, the strategy-execute endpoint (part_000 42-78),
as the HTTP status code it answers with: unknown shortcode →
fiber.ErrNotFound (404); body unmarshal failure → fiber.ErrBadRequest
(400); factory failure → 400; any Compute failure → 400; otherwise the
JSON response (200). -/
def runStrategyStatus (knownShortcode bodyParses factoryOk : Bool)
    (computeResult : Option ComputeErr) : Nat :=
  if knownShortcode then
    if ¬ bodyParses then 400
    else if ¬ factoryOk then 400
    else
      match computeResult with
      | some _ => 400
      | none => 200
  else 404

/-- handler.GetStrategy, the descriptor endpoint (part_000 33-39): the
descriptor (200) for a known shortcode, fiber.ErrNotFound (404)
otherwise. -/
def getStrategyStatus (knownShortcode : Bool) : Nat :=
  if knownShortcode then 200 else 404

/-- Counterexample to C8 as stated: a Compute failure with SymbolNotFound
is answered with 400 (fiber.ErrBadRequest), not 404; an internal/provider
error is also answered with 400, not 500. -/
theorem handler_status_counterexample :
    runStrategyStatus true true true (some .symbolNotFound) = 400 ∧
    (400 : Nat) ≠ 404 ∧
    runStrategyStatus true true true (some .internalError) = 400 ∧
    (400 : Nat) ≠ 500 := by
  refine ⟨rfl, by norm_num, rfl, by norm_num⟩

/-- C8 (amended). For every request to the strategy-execute endpoint: a
parameter parse failure (InvalidArgument) yields 400 and an unknown
strategy shortcode yields 404 (on both the execute and descriptor
endpoints), but every strategy-construction and Compute error — including
SymbolNotFound and provider/network/internal errors — also yields 400;
no error path yields 500. -/
theorem handler_status_mapping (factoryOk : Bool)
    (computeResult : Option ComputeErr) :
    (∀ bodyParses : Bool, ∀ cr : Option ComputeErr,
      runStrategyStatus false bodyParses factoryOk cr = 404) ∧
    getStrategyStatus false = 404 ∧
    runStrategyStatus true false factoryOk computeResult = 400 ∧
    runStrategyStatus true true false computeResult = 400 ∧
    (∀ e : ComputeErr, runStrategyStatus true true true (some e) = 400) ∧
    (∀ kn bp fok : Bool, ∀ cr : Option ComputeErr,
      runStrategyStatus kn bp fok cr ≠ 500) := by
  refine ⟨fun _ _ => rfl, rfl, rfl, rfl, fun _ => rfl, ?_⟩
  intro kn bp fok cr
  cases kn <;> cases bp <;> cases fok <;> cases cr <;>
    simp [runStrategyStatus]

end PV

namespace PV

/-! ### C4: aligning the risk-free series to the merged equity frame -/

/-- A calendar date (year, month, day), ordered lexicographically; models
the day-granularity time.Time values of the monthly series. -/
structure SDate where
  year : ℤ
  month : ℤ
  day : ℤ
deriving DecidableEq

/-- `time.Time.Before` on day-granularity dates. -/
def dateBefore (a b : SDate) : Bool :=
  if a.year < b.year then true
  else if b.year < a.year then false
  else if a.month < b.month then true
  else if b.month < a.month then false
  else decide (a.day < b.day)

/-- Modelled from the spec: `TimeTrim(frame, dateCol, start, end, true)` —
restrict rows to `start ≤ date ≤ end` (applied in place, adm.go 170). -/
def timeTrim (rf : List (SDate × ℚ)) (startT endT : SDate) :
    List (SDate × ℚ) :=
  rf.filter (fun r => !(dateBefore r.1 startT) && !(dateBefore endT r.1))

/-- The risk-free alignment block of downloadPriceData (adm.go 154-181),
in the source's order: read the last row; if the aligned end's (month,
year) differs from the last row's, append `(end, lastValue)`; TimeTrim in
place to `[start, end]`; then read the (post-trim) first row and, when the
aligned start is strictly before it, insert `(start, firstValue)` at
position 0.  `none` models the index-out-of-range panic of reading row 0
or nrows−1 of an empty series. -/
def alignRiskFree (rf : List (SDate × ℚ)) (startT endT : SDate) :
    Option (List (SDate × ℚ)) :=
  match rf.getLast? with
  | none => none
  | some lastRow =>
    let rf1 :=
      if endT.month ≠ lastRow.1.month ∨ endT.year ≠ lastRow.1.year then
        rf ++ [(endT, lastRow.2)]
      else rf
    let rf2 := timeTrim rf1 startT endT
    match rf2.head? with
    | none => none
    | some firstRow =>
      some (if dateBefore startT firstRow.1 then (startT, firstRow.2) :: rf2
        else rf2)

/-- The alignment exactly as claim C4 words it: append `(end, lastValue)`
when the last row's (year, month) *precedes* the aligned end's; insert
`(start, firstValue)` at position 0 when the first row's date postdates
the aligned start; *then* trim to `[alignedStart, alignedEnd]`. -/
def alignRiskFreeClaimed (rf : List (SDate × ℚ)) (startT endT : SDate) :
    Option (List (SDate × ℚ)) :=
  match rf.getLast? with
  | none => none
  | some lastRow =>
    let rf1 :=
      if lastRow.1.year < endT.year ∨
          (lastRow.1.year = endT.year ∧ lastRow.1.month < endT.month) then
        rf ++ [(endT, lastRow.2)]
      else rf
    match rf1.head? with
    | none => none
    | some firstRow =>
      let rf2 :=
        if dateBefore startT firstRow.1 then (startT, firstRow.2) :: rf1
        else rf1
      some (timeTrim rf2 startT endT)

/-- Counterexample to C4 as stated: risk-free rows at 2020-01-01 and
2020-04-01, aligned range [2020-02-01, 2020-04-30].  The code trims first
(discarding the January row) and then inserts (start, 2) because the
post-trim first row (April) postdates the start; the claimed order finds
the original first row (January) does not postdate the start, inserts
nothing, and trims — so the two disagree. -/
theorem adm_riskfree_align_counterexample :
    alignRiskFree [(⟨2020, 1, 1⟩, 1), (⟨2020, 4, 1⟩, 2)]
        ⟨2020, 2, 1⟩ ⟨2020, 4, 30⟩ =
      some [(⟨2020, 2, 1⟩, 2), (⟨2020, 4, 1⟩, 2)] ∧
    alignRiskFreeClaimed [(⟨2020, 1, 1⟩, 1), (⟨2020, 4, 1⟩, 2)]
        ⟨2020, 2, 1⟩ ⟨2020, 4, 30⟩ =
      some [(⟨2020, 4, 1⟩, 2)] ∧
    alignRiskFree [(⟨2020, 1, 1⟩, 1), (⟨2020, 4, 1⟩, 2)]
        ⟨2020, 2, 1⟩ ⟨2020, 4, 30⟩ ≠
      alignRiskFreeClaimed [(⟨2020, 1, 1⟩, 1), (⟨2020, 4, 1⟩, 2)]
        ⟨2020, 2, 1⟩ ⟨2020, 4, 30⟩ := by
  refine ⟨rfl, rfl, ?_⟩
  intro h
  simp only [alignRiskFree, alignRiskFreeClaimed] at h
  exact absurd h (by decide)

/-- Step 1 of the amended C4: append `(end, lastValue)` when the aligned
end's (month, year) differs from the last row's. -/
def amendedAppendEnd (rf : List (SDate × ℚ)) (endT : SDate)
    (lastRow : SDate × ℚ) : List (SDate × ℚ) :=
  if endT.month ≠ lastRow.1.month ∨ endT.year ≠ lastRow.1.year then
    rf ++ [(endT, lastRow.2)]
  else rf

/-- Step 3 of the amended C4: insert `(start, v₀)` at position 0 when the
(post-trim) first row postdates the aligned start, `v₀` being that first
row's value. -/
def amendedInsertStart (rf2 : List (SDate × ℚ)) (startT : SDate) :
    Option (List (SDate × ℚ)) :=
  match rf2.head? with
  | none => none
  | some firstRow =>
    some (if dateBefore startT firstRow.1 then (startT, firstRow.2) :: rf2
      else rf2)

/-- The amended C4 description: append on (year, month) mismatch with the
end, then trim to `[alignedStart, alignedEnd]`, then insert at the front
when the post-trim first row postdates the start. -/
def alignRiskFreeAmended (rf : List (SDate × ℚ)) (startT endT : SDate) :
    Option (List (SDate × ℚ)) :=
  match rf.getLast? with
  | none => none
  | some lastRow =>
    amendedInsertStart (timeTrim (amendedAppendEnd rf endT lastRow) startT endT)
      startT

/-- C4 (amended). When ADM aligns the risk-free series: if the last row's
(year, month) differs from the aligned end's, exactly one row
`(end, lastValue)` is appended; the series is then trimmed to
`[alignedStart, alignedEnd]` inclusive; and if the first remaining row's
date postdates the aligned start, a row `(start, firstRemainingValue)` is
inserted at position 0. -/
theorem adm_riskfree_align_amended (rf : List (SDate × ℚ))
    (startT endT : SDate) :
    alignRiskFree rf startT endT = alignRiskFreeAmended rf startT endT := by
  unfold alignRiskFree alignRiskFreeAmended amendedAppendEnd amendedInsertStart
  cases rf.getLast? <;> rfl

/-! ### C5: the InsufficientHistory and NoOverlap edge cases -/

/-- The error outcomes relevant to ADM Compute's edge cases: the typed
errors the spec mandates, and the index-out-of-range panic the code
actually runs into on those inputs. -/
inductive AdmError where
  | insufficientHistory
  | noOverlap
  | panicIndexOutOfRange
deriving DecidableEq

/-- Modelled from the spec: `MergeAndTimeAlign` inner join — the output
rows are the dates present in every input series, in order. -/
def innerJoinDates (dss : List (List ℤ)) : List ℤ :=
  match dss with
  | [] => []
  | d :: rest => d.filter (fun t => rest.all (fun ds => ds.contains t))

/-- The aligned start/end read of downloadPriceData (adm.go 141-152):
`timeSeries.Value(0)` and `timeSeries.Value(nrows-1)` on the merged frame.
On an empty inner join this indexing panics: there is no NoOverlap
check. -/
def downloadAlignedRange (dss : List (List ℤ)) : Except AdmError (ℤ × ℤ) :=
  let merged := innerJoinDates dss
  match merged.head?, merged.getLast? with
  | some s, some e => .ok (s, e)
  | _, _ => .error .panicIndexOutOfRange

/-- The tail of ADM Compute (adm.go 285-331): build the score frame (the
out-ticker column identically 0 first, then one renamed score column per
in-ticker), DropNA, row-wise ArgMax, and read the last row of the result
as CurrentSymbol.  Reading the last row of an empty frame panics: there is
no InsufficientHistory check. -/
def admCurrentSymbol (tickers : List (String × (Nat → Option ℚ)))
    (outName : String) (rf : Nat → Option ℚ) (nrows : Nat) :
    Except AdmError String :=
  let rows := (List.range nrows).filterMap (fun i =>
    (tickers.mapM (fun tk => (scoreCol tk.2 rf i).map (fun v => (tk.1, v)))).map
      (fun scs => (outName, (0 : ℚ)) :: scs))
  let winners := rows.filterMap argMaxRow
  match winners.getLast? with
  | none => .error .panicIndexOutOfRange
  | some s => .ok s

/-- C5 fails on the code: with an input series of only 3 months of history
every score row is NaN, DropNA empties the frame, and Compute panics
indexing the last row instead of failing with InsufficientHistory; with
disjoint date sets the inner join is empty and downloadPriceData panics
indexing row 0 instead of failing with NoOverlap. -/
theorem adm_missing_typed_errors :
    admCurrentSymbol [("VFINX", fun _ => some 10)] "VUSTX"
        (fun _ => some 1) 3 = .error .panicIndexOutOfRange ∧
    (Except.error AdmError.panicIndexOutOfRange : Except AdmError String) ≠
      .error .insufficientHistory ∧
    downloadAlignedRange [[0, 1, 2], [5, 6]] = .error .panicIndexOutOfRange ∧
    (Except.error AdmError.panicIndexOutOfRange : Except AdmError (ℤ × ℤ)) ≠
      .error .noOverlap := by
  refine ⟨rfl, ?_, rfl, ?_⟩
  · intro h
    exact absurd (Except.error.inj h) (by decide)
  · intro h
    exact absurd (Except.error.inj h) (by decide)

end PV
